import Mathlib

/-!
Verification development for the Master Meds Pro medication-management
application.  The definitions below are a shallow embedding of the
TypeScript source: the data model from `types.ts`, the state-mutation
handlers and the reminder polling loop from the main `App` component,
the base64 audio helpers (`encode` / `decode` built on the browser's
`btoa` / `atob`), the localStorage persistence effects, and the pure
post-processing part of `analyzePrescription` and the chat-session
module state from `services/geminiService.ts`.

JavaScript numbers that the program only ever holds at integer values
(ids, counts, xp, levels) are embedded as `Int`; `Math.floor` of an
integer quotient is `Int.fdiv`.  String-union types (`'am' | 'pm' |
'cycle'`, `'pending' | 'taken' | 'skipped'`) are embedded as inductive
types.  JS `undefined` / `null` holes are embedded as `Option`.
-/

namespace MasterMeds

/-! ## Data model (types.ts, constants.ts) -/

/-- `MedBlock = 'am' | 'pm' | 'cycle'` from types.ts. -/
inductive MedBlock
  | am
  | pm
  | cycle
deriving DecidableEq, Repr

/-- The status union `'pending' | 'taken' | 'skipped'` shared by
`Medication` and `Injection` in types.ts. -/
inductive MedStatus
  | pending
  | taken
  | skipped
deriving DecidableEq, Repr

/-- The `'take' | 'skip'` action union used by `handleMedAction` and
`handleInjectionAction`. -/
inductive MedAction
  | take
  | skip
deriving DecidableEq, Repr

/-- The `'pending' | 'taken'` tab selector used by `filteredMeds` and
`filteredInjections`. -/
inductive ViewTab
  | pending
  | taken
deriving DecidableEq, Repr

/-- `Medication` record from types.ts (`n` is the name, `d` the dosage). -/
structure Medication where
  id : Int
  n : String
  d : String
  block : MedBlock
  status : MedStatus
  time : String
  schedule : List String
  count : Int
deriving DecidableEq, Repr

/-- `Injection` record from types.ts. -/
structure Injection where
  id : Int
  name : String
  dosage : String
  site : String
  time : String
  status : MedStatus
  frequency : String
  schedule : List String
deriving DecidableEq, Repr

/-- `Stats` record from types.ts. -/
structure Stats where
  streak : Int
  level : Int
  xp : Int
  wellness : Int
deriving DecidableEq, Repr

/-- `DAYS_OF_WEEK` from constants.ts. -/
def DAYS_OF_WEEK : List String :=
  ["Sun", "Mon", "Tue", "Wed", "Thu", "Fri", "Sat"]

/-! ## Core state mutations (App component) -/

/-- `handleMedAction` from the App component:
`setMeds(p => p.map(m => m.id === id ? { ...m, status: action === 'take'
? 'taken' : 'skipped', count: action === 'take' ? m.count - 1 : m.count }
: m))`.  Embedded as the pure function applied to the previous list. -/
def handleMedAction (id : Int) (action : MedAction) (meds : List Medication) :
    List Medication :=
  meds.map fun m =>
    if m.id == id then
      { m with
        status := if action == .take then .taken else .skipped,
        count := if action == .take then m.count - 1 else m.count }
    else m

/-- `handleInjectionAction` from the App component:
`setInjections(p => p.map(i => i.id === id ? { ...i, status: action ===
'take' ? 'taken' : 'skipped' } : i))`. -/
def handleInjectionAction (id : Int) (action : MedAction)
    (injections : List Injection) : List Injection :=
  injections.map fun i =>
    if i.id == id then
      { i with status := if action == .take then .taken else .skipped }
    else i

/-- `updateXP` from the App component:
`setStats(p => ({ ...p, xp: p.xp + amt, level: Math.floor((p.xp + amt) /
1000) + 1, wellness: Math.min(100, p.wellness + 2) }))`. -/
def updateXP (amt : Int) (p : Stats) : Stats :=
  { p with
    xp := p.xp + amt,
    level := Int.fdiv (p.xp + amt) 1000 + 1,
    wellness := min 100 (p.wellness + 2) }

/-- `filteredMeds` from the App component:
`meds.filter(m => m.block === block && (status === 'taken' ? m.status !==
'pending' : m.status === 'pending'))`. -/
def filteredMeds (meds : List Medication) (block : MedBlock)
    (status : ViewTab) : List Medication :=
  meds.filter fun m =>
    m.block == block &&
      (if status == .taken then !(m.status == .pending)
       else m.status == .pending)

/-- `filteredInjections` from the App component:
`injections.filter(i => (status === 'taken' ? i.status !== 'pending' :
i.status === 'pending'))`. -/
def filteredInjections (injections : List Injection) (status : ViewTab) :
    List Injection :=
  injections.filter fun i =>
    if status == .taken then !(i.status == .pending)
    else i.status == .pending

/-- A concrete medication (the Lyrica entry of the app's initial state,
here with status `'skipped'`), used to evaluate theorems on concrete
inputs. -/
def sampleSkippedMed : Medication :=
  ⟨3, "Lyrica", "100mg", .pm, .skipped, "20:00", DAYS_OF_WEEK, 5⟩

/-! ## Reminder polling loop (reminder useEffect + 60-second ticker) -/

/-- Dedupe key for a medication reminder: the template literal
`` `med-${m.id}-${time}` `` from the reminder effect. -/
def medKey (id : Int) (time : String) : String :=
  "med-" ++ toString id ++ "-" ++ time

/-- Dedupe key for an injection reminder: the template literal
`` `inj-${i.id}-${time}` ``. -/
def injKey (id : Int) (time : String) : String :=
  "inj-" ++ toString id ++ "-" ++ time

/-- The `'med' | 'inj'` tag of `activeAlarmItem`. -/
inductive AlertType
  | med
  | inj
deriving DecidableEq, Repr

/-- One reminder event.  The reminder effect always performs
`setActiveAlarmItem` (the alarm overlay) and `triggerVoiceAlert` (the
voice alert) together under the same guard, so a single `Alert` value
stands for both. -/
structure Alert where
  type : AlertType
  id : Int
  key : String
deriving DecidableEq, Repr

/-- The inputs one run of the reminder effect reads: `alarmsEnabled`,
the current time `now.toLocaleTimeString('en-GB', { hour: '2-digit',
minute: '2-digit' })` (an `HH:MM` string), the current day abbreviation
`DAYS_OF_WEEK[now.getDay()]`, and the current med / injection lists. -/
structure StepInput where
  alarmsEnabled : Bool
  time : String
  day : String
  meds : List Medication
  injections : List Injection

/-- The medication half of the reminder effect:
`meds.filter(m => m.status === 'pending').forEach(m => { const key =
`med-${m.id}-${time}`; if (m.time === time &&
m.schedule.includes(currentDay) && !remindedItems.has(key)) { ... } })`.
Returns the alerts the run issues for medications, in list order. -/
def medAlerts (inp : StepInput) (reminded : List String) : List Alert :=
  ((inp.meds.filter fun m => m.status == .pending).filter fun m =>
      m.time == inp.time && m.schedule.contains inp.day &&
        !(reminded.contains (medKey m.id inp.time))).map
    fun m => ⟨.med, m.id, medKey m.id inp.time⟩

/-- The injection half of the reminder effect, identical in shape with
key prefix `inj-`. -/
def injAlerts (inp : StepInput) (reminded : List String) : List Alert :=
  ((inp.injections.filter fun i => i.status == .pending).filter fun i =>
      i.time == inp.time && i.schedule.contains inp.day &&
        !(reminded.contains (injKey i.id inp.time))).map
    fun i => ⟨.inj, i.id, injKey i.id inp.time⟩

/-- One run of the reminder `useEffect`.  It returns immediately when
`!alarmsEnabled`.  Within a run every `remindedItems.has(key)` check
reads the set as of the start of the run (the React render closure),
while the queued functional updates `setRemindedItems(p => new
Set(p).add(key))` accumulate every triggered key into the set seen by
the next run.  Returns the alerts issued and the updated reminded set. -/
def runReminderEffect (inp : StepInput) (reminded : List String) :
    List Alert × List String :=
  if !inp.alarmsEnabled then ([], reminded)
  else
    let alerts := medAlerts inp reminded ++ injAlerts inp reminded
    (alerts, reminded ++ alerts.map (·.key))

/-- The polling loop: the `setInterval(() => setNow(new Date()), 60000)`
ticker re-runs the reminder effect once a minute (the effect also
re-runs when its dependencies change); each step threads the reminded
set into the next.  Returns the per-step alert lists and the final
reminded set. -/
def runPolling : List StepInput → List String → List (List Alert) × List String
  | [], reminded => ([], reminded)
  | inp :: rest, reminded =>
    let step := runReminderEffect inp reminded
    let next := runPolling rest step.2
    (step.1 :: next.1, next.2)

/-- A concrete pending medication (the Cozaar entry of the app's
initial state). -/
def samplePendingMed : Medication :=
  ⟨1, "Cozaar", "100mg", .am, .pending, "08:00", DAYS_OF_WEEK, 12⟩

/-- A concrete reminder-effect input at 08:00 on a Monday with alarms
enabled and `samplePendingMed` due. -/
def sampleStep : StepInput :=
  ⟨true, "08:00", "Mon", [samplePendingMed], []⟩

/-! ## Remaining data model records (types.ts) -/

/-- The `'image' | 'pdf'` union of `VaultItem.type`. -/
inductive VaultType
  | image
  | pdf
deriving DecidableEq, Repr

/-- The `'good' | 'neutral' | 'bad'` union of `DiaryEntry.quality`. -/
inductive DayQuality
  | good
  | neutral
  | bad
deriving DecidableEq, Repr

/-- `VaultItem` record from types.ts. -/
structure VaultItem where
  id : Int
  name : String
  date : String
  data : String
  type : VaultType
  mime : Option String
deriving DecidableEq, Repr

/-- `DiaryEntry` record from types.ts. -/
structure DiaryEntry where
  id : Int
  text : String
  tags : List String
  quality : DayQuality
  time : String
  date : String
deriving DecidableEq, Repr

/-- `Symptom` record from types.ts. -/
structure Symptom where
  id : Int
  name : String
  severity : Int
  time : String
  date : String
  linkedMedId : Option Int
deriving DecidableEq, Repr

/-- `EmergencyContact` record from types.ts. -/
structure EmergencyContact where
  id : String
  name : String
  phone : String
deriving DecidableEq, Repr

/-- `Pharmacy` record from types.ts. -/
structure Pharmacy where
  name : String
  phone : String
  email : String
deriving DecidableEq, Repr

/-- One meal of a `DietPlan`. -/
structure Meal where
  name : String
  desc : String
deriving DecidableEq, Repr

/-- `DietPlan` record from types.ts. -/
structure DietPlan where
  preferredFoods : List String
  meals : List Meal
  hydrationGoal : String
deriving DecidableEq, Repr

/-! ## localStorage persistence (save / load useEffects)

The save effect writes `JSON.stringify({ meds, injections, conditions,
stats, vault, diary, symptoms, dietPlan, emergencyContacts, pharmacy,
alarmsEnabled })` under `STORAGE_KEY`; the load effect parses it and
conditionally restores each field.  `JSON.stringify` / `JSON.parse` is
the identity on this plain data, so the stored document is embedded as
a record of `Option` fields (`none` = the key is absent / `undefined`);
`dietPlan` is doubly optional because its state value may itself be
`null`. -/

/-- The eleven persisted fields of the application state.  `dietPlan`
is `DietPlan | null` in the state, hence `Option`. -/
structure PersistedState where
  meds : List Medication
  injections : List Injection
  conditions : List String
  stats : Stats
  vault : List VaultItem
  diary : List DiaryEntry
  symptoms : List Symptom
  dietPlan : Option DietPlan
  emergencyContacts : List EmergencyContact
  pharmacy : Pharmacy
  alarmsEnabled : Bool
deriving DecidableEq, Repr

/-- The parsed JSON document `d` the load effect reads: each key may be
absent (`undefined`). -/
structure SavedDoc where
  meds : Option (List Medication)
  injections : Option (List Injection)
  conditions : Option (List String)
  stats : Option Stats
  vault : Option (List VaultItem)
  diary : Option (List DiaryEntry)
  symptoms : Option (List Symptom)
  dietPlan : Option (Option DietPlan)
  emergencyContacts : Option (List EmergencyContact)
  pharmacy : Option Pharmacy
  alarmsEnabled : Option Bool
deriving DecidableEq, Repr

/-- `STORAGE_KEY` from the App component, with
`REVISION = "1.1.0-GOLD"` interpolated. -/
def STORAGE_KEY : String := "master_meds_pro_production_rev_1.1.0-GOLD"

/-- The save effect: `localStorage.setItem(STORAGE_KEY,
JSON.stringify({ ... }))` serialises all eleven fields (every key
present). -/
def saveState (s : PersistedState) : SavedDoc :=
  { meds := some s.meds, injections := some s.injections,
    conditions := some s.conditions, stats := some s.stats,
    vault := some s.vault, diary := some s.diary,
    symptoms := some s.symptoms, dietPlan := some s.dietPlan,
    emergencyContacts := some s.emergencyContacts,
    pharmacy := some s.pharmacy, alarmsEnabled := some s.alarmsEnabled }

/-- The body of the load effect applied to a parsed document `d` and
the current (initial) state: `if (d.meds) setMeds(d.meds); ...`.
An array or object value is always truthy in JS — even `[]` — so for
those fields the guard only tests presence; `if (d.dietPlan)` is false
for both an absent key and a stored `null`; `alarmsEnabled` uses the
explicit `d.alarmsEnabled !== undefined` test, so a stored `false` is
restored. -/
def loadState (d : SavedDoc) (s : PersistedState) : PersistedState :=
  { meds := match d.meds with | some v => v | none => s.meds,
    injections := match d.injections with | some v => v | none => s.injections,
    conditions := match d.conditions with | some v => v | none => s.conditions,
    stats := match d.stats with | some v => v | none => s.stats,
    vault := match d.vault with | some v => v | none => s.vault,
    diary := match d.diary with | some v => v | none => s.diary,
    symptoms := match d.symptoms with | some v => v | none => s.symptoms,
    dietPlan := match d.dietPlan with
      | some (some p) => some p
      | _ => s.dietPlan,
    emergencyContacts := match d.emergencyContacts with
      | some v => v
      | none => s.emergencyContacts,
    pharmacy := match d.pharmacy with | some v => v | none => s.pharmacy,
    alarmsEnabled := match d.alarmsEnabled with
      | some v => v
      | none => s.alarmsEnabled }

/-- The app's initial state: the `useState` initial values of the
eleven persisted fields. -/
def initialState : PersistedState :=
  { meds :=
      [⟨1, "Cozaar", "100mg", .am, .pending, "08:00", DAYS_OF_WEEK, 12⟩,
       ⟨2, "Vitamin D", "1000IU", .am, .pending, "09:00", DAYS_OF_WEEK, 15⟩,
       ⟨3, "Lyrica", "100mg", .pm, .pending, "20:00", DAYS_OF_WEEK, 5⟩,
       ⟨4, "Magnesium", "500mg", .pm, .pending, "21:00", DAYS_OF_WEEK, 15⟩],
    injections := [],
    conditions := [],
    stats := ⟨12, 3, 2450, 88⟩,
    vault := [],
    diary := [],
    symptoms := [],
    dietPlan := none,
    emergencyContacts := [],
    pharmacy := ⟨"", "", ""⟩,
    alarmsEnabled := true }

/-- localStorage as a map from keys to stored documents; the save
effect writes under `STORAGE_KEY`. -/
def saveToStorage (store : String → Option SavedDoc) (s : PersistedState) :
    String → Option SavedDoc :=
  fun k => if k = STORAGE_KEY then some (saveState s) else store k

/-- The load effect: `const saved = localStorage.getItem(STORAGE_KEY);
if (saved) { ... }` — when nothing is stored the state is left as it
is, otherwise the parsed document is applied. -/
def loadFromStorage (store : String → Option SavedDoc)
    (s : PersistedState) : PersistedState :=
  match store STORAGE_KEY with
  | none => s
  | some d => loadState d s

/-! ## analyzePrescription post-processing (services/geminiService.ts)

The remote call returns JSON matching the declared response schema;
the pure part of `analyzePrescription` partitions `parsed.items` into
meds and injections.  The `Math.floor(Math.random() * 1000000)` ids are
embedded by pairing each item with the id the code draws for it. -/

/-- One element of `parsed.items`: the response schema requires `type`,
`name`, `dosage` and `time`; `frequency` and `site` may be absent. -/
structure ParsedItem where
  type : String
  name : String
  dosage : String
  time : String
  frequency : Option String
  site : Option String
deriving DecidableEq, Repr

/-- JS `x || d` for an optional string `x`: both `undefined` and the
empty string are falsy. -/
def jsOrString (x : Option String) (d : String) : String :=
  match x with
  | none => d
  | some s => if s = "" then d else s

/-- The injection pushed for an item with `type === 'injection'`:
`{ id: Math.floor(Math.random() * 1000000), name, dosage, site:
item.site || 'Rotate Sites', time, status: 'pending', frequency:
item.frequency || 'Weekly', schedule: ['Fri'] }`. -/
def mkInjection (id : Int) (item : ParsedItem) : Injection :=
  { id := id, name := item.name, dosage := item.dosage,
    site := jsOrString item.site "Rotate Sites", time := item.time,
    status := .pending, frequency := jsOrString item.frequency "Weekly",
    schedule := ["Fri"] }

/-- The medication pushed for every other item:
`{ id: Math.floor(Math.random() * 1000000), n: item.name, d:
item.dosage, block: 'am', status: 'pending', time: item.time, schedule:
['Sun', ..., 'Sat'], count: 30 }`. -/
def mkMedication (id : Int) (item : ParsedItem) : Medication :=
  { id := id, n := item.name, d := item.dosage, block := .am,
    status := .pending, time := item.time,
    schedule := ["Sun", "Mon", "Tue", "Wed", "Thu", "Fri", "Sat"],
    count := 30 }

/-- The `parsed.items.forEach` loop of `analyzePrescription`: each item
is appended to the injections list when `item.type === 'injection'` and
to the meds list otherwise. -/
def processItems : List (ParsedItem × Int) → List Medication × List Injection
  | [] => ([], [])
  | x :: rest =>
    let next := processItems rest
    if x.1.type == "injection" then (next.1, mkInjection x.2 x.1 :: next.2)
    else (mkMedication x.2 x.1 :: next.1, next.2)

/-! ## Chat session module state (services/geminiService.ts)

`let activeChatSession: Chat | null = null` is module-level mutable
state; `startChat` replaces it and `sendChatMessage` reads it.  The
remote model's reply is an oracle `respond`. -/

/-- The chat session `ai.chats.create` returns, with the configuration
the app supplies. -/
structure Chat where
  model : String
  systemInstruction : String
deriving DecidableEq, Repr

/-- The session `startChat` creates: model `'gemini-flash-lite-latest'`
with the Doctor B system instruction built from `medContext` and
`conditionContext` (the template literal's layout whitespace is kept as
single newlines). -/
def mkChatSession (meds : List Medication) (conditions : List String) : Chat :=
  let medContext := String.intercalate ", "
    (meds.map fun m => m.n ++ " (" ++ m.d ++ ")")
  let conditionContext :=
    if conditions.length > 0 then
      "The patient has the following medical conditions: " ++
        String.intercalate ", " conditions ++ "."
    else "No specific conditions listed yet."
  { model := "gemini-flash-lite-latest",
    systemInstruction :=
      "You are Doctor B, a world-class Senior Consultant Physician and Clinical Specialist.\n" ++
      conditionContext ++ "\n" ++
      "The patient's current regimen: " ++ medContext ++ ".\n" ++
      "Your persona is gentle, hyper-realistic, professional, and deeply empathetic.\n" ++
      "Tailor all advice specifically to their medical conditions." }

/-- `startChat`: assigns `activeChatSession = ai.chats.create({...})`
(the previous session, if any, is discarded). -/
def startChat (meds : List Medication) (conditions : List String)
    (_st : Option Chat) : Option Chat :=
  some (mkChatSession meds conditions)

/-- `sendChatMessage`: `if (!activeChatSession) throw new Error("Chat
not initialized");` then awaits `activeChatSession.sendMessage({
message })` and returns `response.text`.  The function never assigns
the module variable, so the state comes back unchanged with the
reply. -/
def sendChatMessage (respond : Chat → String → String) (message : String) :
    Option Chat → Except String (String × Option Chat)
  | none => .error "Chat not initialized"
  | some s => .ok (respond s message, some s)

/-- The operations the app performs against the chat module. -/
inductive ChatOp
  | start (meds : List Medication) (conditions : List String)
  | send (message : String)

/-- Whether an operation is a `startChat` call. -/
def ChatOp.isStart : ChatOp → Bool
  | .start _ _ => true
  | .send _ => false

/-- Runs a sequence of chat operations against the module state.  A
`send` that throws leaves the state as it was (the exception propagates
before any assignment). -/
def runChatOps (respond : Chat → String → String) :
    List ChatOp → Option Chat → Option Chat
  | [], st => st
  | .start meds conds :: rest, st =>
      runChatOps respond rest (startChat meds conds st)
  | .send msg :: rest, st =>
      runChatOps respond rest
        (match sendChatMessage respond msg st with
         | .ok (_, st') => st'
         | .error _ => st)

/-! ## Base64 audio helpers (`encode` / `decode` over `btoa` / `atob`)

The app's `encode` builds a binary string whose char codes are exactly
the bytes of the `Uint8Array` (`String.fromCharCode` per byte) and
applies the browser's `btoa`; `decode` applies `atob` and reads the
char codes back with `charCodeAt`.  Both byte arrays and binary strings
are therefore embedded as `List Nat` of values `< 256`, and the base64
text as `List Char`. -/

/-- The base64 alphabet indexed 0–63 (RFC 4648, as used by `btoa`). -/
def b64alphabet : List Char :=
  ['A', 'B', 'C', 'D', 'E', 'F', 'G', 'H', 'I', 'J', 'K', 'L', 'M',
   'N', 'O', 'P', 'Q', 'R', 'S', 'T', 'U', 'V', 'W', 'X', 'Y', 'Z',
   'a', 'b', 'c', 'd', 'e', 'f', 'g', 'h', 'i', 'j', 'k', 'l', 'm',
   'n', 'o', 'p', 'q', 'r', 's', 't', 'u', 'v', 'w', 'x', 'y', 'z',
   '0', '1', '2', '3', '4', '5', '6', '7', '8', '9', '+', '/']

/-- The base64 digit for a 6-bit value. -/
def b64char (n : Nat) : Char := b64alphabet.getD n 'A'

/-- The 6-bit value of a base64 digit (the inverse alphabet lookup that
`atob` performs). -/
def b64val (c : Char) : Nat := b64alphabet.indexOf c

/-- The browser's `btoa` on a latin-1 string given by its char codes:
each group of three bytes becomes four base64 digits; a trailing group
of one or two bytes is zero-padded into two or three digits followed by
`'='` padding. -/
def btoa : List Nat → List Char
  | [] => []
  | [a] => [b64char (a / 4), b64char (a % 4 * 16), '=', '=']
  | [a, b] => [b64char (a / 4), b64char (a % 4 * 16 + b / 16),
               b64char (b % 16 * 4), '=']
  | a :: b :: c :: rest =>
      b64char (a / 4) :: b64char (a % 4 * 16 + b / 16) ::
        b64char (b % 16 * 4 + c / 64) :: b64char (c % 64) :: btoa rest

/-- Reassembles concatenated 6-bit groups into 8-bit bytes, discarding
a trailing group of fewer than 8 bits — the WHATWG forgiving-base64
decode that `atob` implements. -/
def sextetsToBytes : List Nat → List Nat
  | [] => []
  | [_] => []
  | [s, t] => [(s * 4 + t / 16)]
  | [s, t, u] => [(s * 4 + t / 16), (t % 16 * 16 + u / 4)]
  | s :: t :: u :: v :: rest =>
      (s * 4 + t / 16) :: (t % 16 * 16 + u / 4) :: (u % 4 * 64 + v) ::
        sextetsToBytes rest

/-- The browser's `atob`: strip the `'='` padding, map the base64
digits to their 6-bit values, and reassemble the bytes. -/
def atob (s : List Char) : List Nat :=
  sextetsToBytes ((s.filter fun c => c != '=').map b64val)

/-- `encode` from the App component (`String.fromCharCode` over the
bytes, then `btoa`), on the byte values. -/
def encode (bytes : List Nat) : List Char := btoa bytes

/-- `decode` from the App component (`atob`, then `charCodeAt` per
char), returning the byte values. -/
def decode (s : List Char) : List Nat := atob s

/-! ## Pointwise characterisation of the action handlers -/

theorem handleMedAction_pointwise (id : Int) (action : MedAction)
    (meds : List Medication) :
    List.Forall₂ (fun m m' => m' =
      if m.id = id then
        { m with
          status := if action = .take then .taken else .skipped,
          count := if action = .take then m.count - 1 else m.count }
      else m) meds (handleMedAction id action meds) := by
  induction meds with
  | nil => exact List.Forall₂.nil
  | cons m rest ih =>
    simp only [handleMedAction, List.map_cons] at *
    refine List.Forall₂.cons ?_ ih
    by_cases h : m.id = id <;> cases action <;> simp [h]

theorem handleInjectionAction_pointwise (id : Int) (action : MedAction)
    (injections : List Injection) :
    List.Forall₂ (fun i i' => i' =
      if i.id = id then
        { i with status := if action = .take then .taken else .skipped }
      else i) injections (handleInjectionAction id action injections) := by
  induction injections with
  | nil => exact List.Forall₂.nil
  | cons i rest ih =>
    simp only [handleInjectionAction, List.map_cons] at *
    refine List.Forall₂.cons ?_ ih
    by_cases h : i.id = id <;> cases action <;> simp [h]

/-- C1: for every medication list and every id present in it,
`handleMedAction(id, 'take')` sets the status of the medication with
that id to `'taken'` and decrements its count by exactly 1, while
`handleMedAction(id, 'skip')` sets its status to `'skipped'` and leaves
its count unchanged; no other field of that medication is modified (the
record update touches only `status` and `count`). -/
theorem med_take_sets_taken_skip_sets_skipped (meds : List Medication)
    (id : Int) :
    List.Forall₂ (fun m m' => m.id = id →
        m' = { m with status := .taken, count := m.count - 1 })
      meds (handleMedAction id .take meds) ∧
    List.Forall₂ (fun m m' => m.id = id →
        m' = { m with status := .skipped, count := m.count })
      meds (handleMedAction id .skip meds) := by
  constructor
  · exact (handleMedAction_pointwise id .take meds).imp
      (by intro m m' h hid; simpa [hid] using h)
  · exact (handleMedAction_pointwise id .skip meds).imp
      (by intro m m' h hid; simpa [hid] using h)

/-- C7: `handleMedAction(id, action)` leaves every medication whose id
differs from the given id completely unchanged, and
`handleInjectionAction(id, action)` leaves every injection with a
different id unchanged. -/
theorem actions_frame_other_ids (id : Int) (action : MedAction)
    (meds : List Medication) (injections : List Injection) :
    List.Forall₂ (fun m m' => m.id ≠ id → m' = m)
      meds (handleMedAction id action meds) ∧
    List.Forall₂ (fun i i' => i.id ≠ id → i' = i)
      injections (handleInjectionAction id action injections) := by
  constructor
  · exact (handleMedAction_pointwise id action meds).imp
      (by intro m m' h hid; simpa [hid] using h)
  · exact (handleInjectionAction_pointwise id action injections).imp
      (by intro i i' h hid; simpa [hid] using h)

/-- C8: `updateXP` preserves the invariant that wellness never exceeds
100: for every stats record with wellness at most 100 and every amount,
the updated record has wellness `min 100 (wellness + 2)` (hence still at
most 100) and level `floor((xp + amount) / 1000) + 1`. -/
theorem updateXP_wellness_capped_level_formula (p : Stats) (amt : Int)
    (_h : p.wellness ≤ 100) :
    (updateXP amt p).wellness = min 100 (p.wellness + 2) ∧
    (updateXP amt p).level = Int.fdiv (p.xp + amt) 1000 + 1 ∧
    (updateXP amt p).wellness ≤ 100 := by
  refine ⟨rfl, rfl, ?_⟩
  show min 100 (p.wellness + 2) ≤ 100
  exact min_le_left _ _

theorem updateXP_wellness_capped_level_formula_witness :
    (Stats.wellness ⟨12, 3, 2450, 88⟩ ≤ 100) ∧
    ((updateXP 50 ⟨12, 3, 2450, 88⟩).wellness =
        min 100 (Stats.wellness ⟨12, 3, 2450, 88⟩ + 2) ∧
      (updateXP 50 ⟨12, 3, 2450, 88⟩).level =
        Int.fdiv (Stats.xp ⟨12, 3, 2450, 88⟩ + 50) 1000 + 1 ∧
      (updateXP 50 ⟨12, 3, 2450, 88⟩).wellness ≤ 100) :=
  ⟨by decide, updateXP_wellness_capped_level_formula ⟨12, 3, 2450, 88⟩ 50 (by decide)⟩

/-- C10: for a medication of the given block, the `'pending'` and
`'taken'` views of `filteredMeds` partition it (it appears in exactly
one of the two), and a medication with status `'skipped'` appears in the
`'taken'` view. -/
theorem filteredMeds_views_partition (meds : List Medication)
    (block : MedBlock) (m : Medication) (hm : m ∈ meds)
    (hb : m.block = block) :
    ((m ∈ filteredMeds meds block .pending ∧
        m ∉ filteredMeds meds block .taken) ∨
      (m ∉ filteredMeds meds block .pending ∧
        m ∈ filteredMeds meds block .taken)) ∧
    (m.status = .skipped → m ∈ filteredMeds meds block .taken) := by
  have hp : m ∈ filteredMeds meds block .pending ↔ m.status = .pending := by
    simp [filteredMeds, List.mem_filter, hm, hb]
  have ht : m ∈ filteredMeds meds block .taken ↔ ¬ m.status = .pending := by
    simp [filteredMeds, List.mem_filter, hm, hb]
  constructor
  · by_cases hs : m.status = .pending
    · exact Or.inl ⟨hp.mpr hs, fun hmem => (ht.mp hmem) hs⟩
    · exact Or.inr ⟨fun hmem => hs (hp.mp hmem), ht.mpr hs⟩
  · intro hs
    refine ht.mpr ?_
    rw [hs]
    intro hcontra
    cases hcontra

/-! ## Base64 round trip -/

theorem b64val_b64char {n : Nat} (h : n < 64) : b64val (b64char n) = n :=
  (by decide : ∀ m : Fin 64, b64val (b64char m.val) = m.val) ⟨n, h⟩

theorem b64char_ne_pad (n : Nat) : (b64char n != '=') = true := by
  rcases Nat.lt_or_ge n 64 with h | h
  · exact (by decide : ∀ m : Fin 64, (b64char m.val != '=') = true) ⟨n, h⟩
  · have hl : b64alphabet.length ≤ n := by
      simp only [b64alphabet, List.length_cons, List.length_nil]
      omega
    rw [b64char, List.getD_eq_default _ _ hl]
    decide

/-- C4: the base64 audio helpers form a round trip: for every byte
array `b` (char codes `< 256`), `decode (encode b) = b`, where `encode`
maps each byte through `String.fromCharCode` and `btoa`, and `decode`
applies `atob` and `charCodeAt` per character. -/
theorem decode_encode_roundtrip : (bytes : List Nat) →
    (∀ b ∈ bytes, b < 256) → decode (encode bytes) = bytes
  | [], _ => rfl
  | [a], h => by
    have ha : a < 256 := h a (by simp)
    have h1 : b64val (b64char (a / 4)) = a / 4 := b64val_b64char (by omega)
    have h2 : b64val (b64char (a % 4 * 16)) = a % 4 * 16 :=
      b64val_b64char (by omega)
    show decode (encode [a]) = [a]
    simp [encode, decode, btoa, atob, List.filter_cons, b64char_ne_pad,
      h1, h2, sextetsToBytes]
    omega
  | [a, b], h => by
    have ha : a < 256 := h a (by simp)
    have hb : b < 256 := h b (by simp)
    have h1 : b64val (b64char (a / 4)) = a / 4 := b64val_b64char (by omega)
    have h2 : b64val (b64char (a % 4 * 16 + b / 16)) = a % 4 * 16 + b / 16 :=
      b64val_b64char (by omega)
    have h3 : b64val (b64char (b % 16 * 4)) = b % 16 * 4 :=
      b64val_b64char (by omega)
    show decode (encode [a, b]) = [a, b]
    simp [encode, decode, btoa, atob, List.filter_cons, b64char_ne_pad,
      h1, h2, h3, sextetsToBytes]
    omega
  | a :: b :: c :: rest, h => by
    have ha : a < 256 := h a (by simp)
    have hb : b < 256 := h b (by simp)
    have hc : c < 256 := h c (by simp)
    have ih := decode_encode_roundtrip rest
      (fun x hx => h x (by simp [hx]))
    have h1 : b64val (b64char (a / 4)) = a / 4 := b64val_b64char (by omega)
    have h2 : b64val (b64char (a % 4 * 16 + b / 16)) = a % 4 * 16 + b / 16 :=
      b64val_b64char (by omega)
    have h3 : b64val (b64char (b % 16 * 4 + c / 64)) = b % 16 * 4 + c / 64 :=
      b64val_b64char (by omega)
    have h4 : b64val (b64char (c % 64)) = c % 64 := b64val_b64char (by omega)
    simp only [encode, decode, atob] at ih
    show decode (encode (a :: b :: c :: rest)) = a :: b :: c :: rest
    simp [encode, decode, btoa, atob, List.filter_cons, b64char_ne_pad,
      h1, h2, h3, h4, sextetsToBytes, ih]
    omega

theorem decode_encode_roundtrip_witness :
    (∀ b ∈ [72, 101, 108, 255, 0], b < 256) ∧
    decode (encode [72, 101, 108, 255, 0]) = [72, 101, 108, 255, 0] :=
  ⟨by decide, decode_encode_roundtrip [72, 101, 108, 255, 0] (by decide)⟩

/-! ## Reminder lemmas -/

theorem runReminderEffect_enabled (inp : StepInput) (reminded : List String)
    (hae : inp.alarmsEnabled = true) :
    runReminderEffect inp reminded =
      (medAlerts inp reminded ++ injAlerts inp reminded,
       reminded ++
         (medAlerts inp reminded ++ injAlerts inp reminded).map Alert.key) := by
  simp [runReminderEffect, hae]

theorem runReminderEffect_disabled (inp : StepInput) (reminded : List String)
    (hae : inp.alarmsEnabled = false) :
    runReminderEffect inp reminded = ([], reminded) := by
  simp [runReminderEffect, hae]

theorem mem_medAlerts_iff (inp : StepInput) (reminded : List String)
    (a : Alert) :
    a ∈ medAlerts inp reminded ↔
      ∃ m ∈ inp.meds, m.status = .pending ∧ m.time = inp.time ∧
        inp.day ∈ m.schedule ∧ medKey m.id inp.time ∉ reminded ∧
        a = ⟨.med, m.id, medKey m.id inp.time⟩ := by
  constructor
  · intro h
    rcases List.mem_map.mp h with ⟨m, hm, rfl⟩
    rcases List.mem_filter.mp hm with ⟨hm2, hcond⟩
    rcases List.mem_filter.mp hm2 with ⟨hmem, hst⟩
    rw [Bool.and_eq_true, Bool.and_eq_true] at hcond
    obtain ⟨⟨ht, hd⟩, hr⟩ := hcond
    refine ⟨m, hmem, by simpa using hst, by simpa using ht, ?_, ?_, rfl⟩
    · simpa [List.contains] using hd
    · simpa [List.contains] using hr
  · rintro ⟨m, hmem, hst, ht, hd, hr, rfl⟩
    refine List.mem_map.mpr ⟨m, ?_, rfl⟩
    refine List.mem_filter.mpr ⟨List.mem_filter.mpr ⟨hmem, by simp [hst]⟩, ?_⟩
    rw [Bool.and_eq_true, Bool.and_eq_true]
    exact ⟨⟨by simp [ht], by simp [List.contains, hd]⟩,
      by simp [List.contains, hr]⟩

theorem mem_injAlerts_iff (inp : StepInput) (reminded : List String)
    (a : Alert) :
    a ∈ injAlerts inp reminded ↔
      ∃ i ∈ inp.injections, i.status = .pending ∧ i.time = inp.time ∧
        inp.day ∈ i.schedule ∧ injKey i.id inp.time ∉ reminded ∧
        a = ⟨.inj, i.id, injKey i.id inp.time⟩ := by
  constructor
  · intro h
    rcases List.mem_map.mp h with ⟨i, hi, rfl⟩
    rcases List.mem_filter.mp hi with ⟨hi2, hcond⟩
    rcases List.mem_filter.mp hi2 with ⟨hmem, hst⟩
    rw [Bool.and_eq_true, Bool.and_eq_true] at hcond
    obtain ⟨⟨ht, hd⟩, hr⟩ := hcond
    refine ⟨i, hmem, by simpa using hst, by simpa using ht, ?_, ?_, rfl⟩
    · simpa [List.contains] using hd
    · simpa [List.contains] using hr
  · rintro ⟨i, hmem, hst, ht, hd, hr, rfl⟩
    refine List.mem_map.mpr ⟨i, ?_, rfl⟩
    refine List.mem_filter.mpr ⟨List.mem_filter.mpr ⟨hmem, by simp [hst]⟩, ?_⟩
    rw [Bool.and_eq_true, Bool.and_eq_true]
    exact ⟨⟨by simp [ht], by simp [List.contains, hd]⟩,
      by simp [List.contains, hr]⟩

/-- Any alert issued by a run has a key that was not yet in the
reminded set at the start of that run. -/
theorem alert_key_not_reminded {inp : StepInput} {reminded : List String}
    {a : Alert} (ha : a ∈ (runReminderEffect inp reminded).1) :
    a.key ∉ reminded := by
  by_cases hae : inp.alarmsEnabled
  · rw [runReminderEffect_enabled inp reminded hae] at ha
    rcases List.mem_append.mp ha with h | h
    · rcases (mem_medAlerts_iff inp reminded a).mp h with
        ⟨m, _, _, _, _, hr, rfl⟩
      exact hr
    · rcases (mem_injAlerts_iff inp reminded a).mp h with
        ⟨i, _, _, _, _, hr, rfl⟩
      exact hr
  · rw [runReminderEffect_disabled inp reminded (by simpa using hae)] at ha
    simp at ha

/-- Any alert issued by a run has its key in the reminded set the run
returns. -/
theorem alert_key_added {inp : StepInput} {reminded : List String}
    {a : Alert} (ha : a ∈ (runReminderEffect inp reminded).1) :
    a.key ∈ (runReminderEffect inp reminded).2 := by
  by_cases hae : inp.alarmsEnabled
  · rw [runReminderEffect_enabled inp reminded hae] at ha ⊢
    exact List.mem_append.mpr (Or.inr (List.mem_map.mpr ⟨a, ha, rfl⟩))
  · rw [runReminderEffect_disabled inp reminded (by simpa using hae)] at ha
    simp at ha

/-- The reminded set only grows across a run. -/
theorem reminded_grows (inp : StepInput) (reminded : List String)
    {k : String} (hk : k ∈ reminded) :
    k ∈ (runReminderEffect inp reminded).2 := by
  by_cases hae : inp.alarmsEnabled
  · rw [runReminderEffect_enabled inp reminded hae]
    exact List.mem_append.mpr (Or.inl hk)
  · rw [runReminderEffect_disabled inp reminded (by simpa using hae)]
    exact hk

/-- Once a key is in the reminded set, no subsequent polling step
issues an alert with that key. -/
theorem no_alert_once_reminded (inputs : List StepInput)
    (reminded : List String) {k : String} (hk : k ∈ reminded) (j : Nat) :
    k ∉ ((runPolling inputs reminded).1.getD j []).map Alert.key := by
  induction inputs generalizing reminded j with
  | nil => simp [runPolling]
  | cons inp rest ih =>
    rw [runPolling]
    cases j with
    | zero =>
      simp only [List.getD_cons_zero]
      intro hmem
      rcases List.mem_map.mp hmem with ⟨a, ha, rfl⟩
      exact alert_key_not_reminded ha hk
    | succ j =>
      simp only [List.getD_cons_succ]
      exact ih (runReminderEffect inp reminded).2 (reminded_grows inp reminded hk) j

/-- C2: the reminder mechanism never issues a reminder twice for the
same string key `med-<id>-<time>` / `inj-<id>-<time>`: for every
sequence of polling steps, once a key has been triggered (and thereby
added to the `remindedItems` set) at some step, no later step issues
another alarm or voice alert with that key. -/
theorem reminder_dedupe_across_steps (inputs : List StepInput)
    (reminded : List String) (i j : Nat) (k : String) (hij : i < j)
    (hk : k ∈ ((runPolling inputs reminded).1.getD i []).map Alert.key) :
    k ∉ ((runPolling inputs reminded).1.getD j []).map Alert.key := by
  induction inputs generalizing reminded i j with
  | nil => simp [runPolling] at hk
  | cons inp rest ih =>
    rw [runPolling] at hk ⊢
    cases i with
    | zero =>
      simp only [List.getD_cons_zero] at hk
      rcases List.mem_map.mp hk with ⟨a, ha, rfl⟩
      obtain ⟨j', rfl⟩ : ∃ j', j = j' + 1 :=
        ⟨j - 1, by omega⟩
      simp only [List.getD_cons_succ]
      exact no_alert_once_reminded rest _ (alert_key_added ha) j'
    | succ i =>
      obtain ⟨j', rfl⟩ : ∃ j', j = j' + 1 := ⟨j - 1, by omega⟩
      simp only [List.getD_cons_succ] at hk ⊢
      exact ih _ i j' (by omega) hk

theorem reminder_dedupe_across_steps_witness :
    (0 < 1) ∧
    (medKey 1 "08:00" ∈
      (((runPolling [sampleStep, sampleStep] []).1.getD 0 []).map Alert.key)) ∧
    (medKey 1 "08:00" ∉
      (((runPolling [sampleStep, sampleStep] []).1.getD 1 []).map Alert.key)) :=
  ⟨by decide, by decide,
    reminder_dedupe_across_steps [sampleStep, sampleStep] [] 0 1
      (medKey 1 "08:00") (by decide) (by decide)⟩

/-- C3: a reminder (alarm overlay plus voice alert) is issued for a
medication or injection only when: alarms are enabled, the item's
status is `'pending'`, the item's `time` equals the current `HH:MM`
time string, the item's schedule contains the current day-of-week
abbreviation, and the item's dedupe key is not already in the reminded
set. -/
theorem reminder_fires_only_when_due (inp : StepInput)
    (reminded : List String) (a : Alert)
    (ha : a ∈ (runReminderEffect inp reminded).1) :
    inp.alarmsEnabled = true ∧
    (a.type = .med →
      ∃ m ∈ inp.meds, a.id = m.id ∧ a.key = medKey m.id inp.time ∧
        m.status = .pending ∧ m.time = inp.time ∧ inp.day ∈ m.schedule ∧
        medKey m.id inp.time ∉ reminded) ∧
    (a.type = .inj →
      ∃ i ∈ inp.injections, a.id = i.id ∧ a.key = injKey i.id inp.time ∧
        i.status = .pending ∧ i.time = inp.time ∧ inp.day ∈ i.schedule ∧
        injKey i.id inp.time ∉ reminded) := by
  by_cases hae : inp.alarmsEnabled
  · refine ⟨hae, ?_⟩
    rw [runReminderEffect_enabled inp reminded hae] at ha
    rcases List.mem_append.mp ha with h | h
    · rcases (mem_medAlerts_iff inp reminded a).mp h with
        ⟨m, hmem, hst, ht, hd, hr, rfl⟩
      exact ⟨fun _ => ⟨m, hmem, rfl, rfl, hst, ht, hd, hr⟩,
        fun hty => by cases hty⟩
    · rcases (mem_injAlerts_iff inp reminded a).mp h with
        ⟨i, hmem, hst, ht, hd, hr, rfl⟩
      exact ⟨fun hty => (by cases hty),
        fun _ => ⟨i, hmem, rfl, rfl, hst, ht, hd, hr⟩⟩
  · rw [runReminderEffect_disabled inp reminded (by simpa using hae)] at ha
    simp at ha

theorem reminder_fires_only_when_due_witness :
    ((⟨.med, 1, medKey 1 "08:00"⟩ : Alert) ∈
      (runReminderEffect sampleStep []).1) ∧
    (sampleStep.alarmsEnabled = true ∧
      (Alert.type ⟨.med, 1, medKey 1 "08:00"⟩ = .med →
        ∃ m ∈ sampleStep.meds,
          Alert.id ⟨.med, 1, medKey 1 "08:00"⟩ = m.id ∧
          Alert.key ⟨.med, 1, medKey 1 "08:00"⟩ = medKey m.id sampleStep.time ∧
          m.status = .pending ∧ m.time = sampleStep.time ∧
          sampleStep.day ∈ m.schedule ∧
          medKey m.id sampleStep.time ∉ ([] : List String)) ∧
      (Alert.type ⟨.med, 1, medKey 1 "08:00"⟩ = .inj →
        ∃ i ∈ sampleStep.injections,
          Alert.id ⟨.med, 1, medKey 1 "08:00"⟩ = i.id ∧
          Alert.key ⟨.med, 1, medKey 1 "08:00"⟩ = injKey i.id sampleStep.time ∧
          i.status = .pending ∧ i.time = sampleStep.time ∧
          sampleStep.day ∈ i.schedule ∧
          injKey i.id sampleStep.time ∉ ([] : List String))) :=
  ⟨by decide,
    reminder_fires_only_when_due sampleStep [] ⟨.med, 1, medKey 1 "08:00"⟩
      (by decide)⟩

theorem filteredMeds_views_partition_witness :
    sampleSkippedMed ∈ [sampleSkippedMed] ∧
    sampleSkippedMed.block = MedBlock.pm ∧
    (((sampleSkippedMed ∈ filteredMeds [sampleSkippedMed] .pm .pending ∧
        sampleSkippedMed ∉ filteredMeds [sampleSkippedMed] .pm .taken) ∨
      (sampleSkippedMed ∉ filteredMeds [sampleSkippedMed] .pm .pending ∧
        sampleSkippedMed ∈ filteredMeds [sampleSkippedMed] .pm .taken)) ∧
    (sampleSkippedMed.status = .skipped →
      sampleSkippedMed ∈ filteredMeds [sampleSkippedMed] .pm .taken)) :=
  ⟨by decide, by decide,
    filteredMeds_views_partition [sampleSkippedMed] .pm sampleSkippedMed
      (by decide) (by decide)⟩

/-! ## Persistence round trip -/

/-- C5: persistence round-trips the patient profile: the save effect
writes all eleven persisted fields under `STORAGE_KEY`, and the load
effect applied (at app start, over the initial state) to that saved
document restores exactly those field values, for every application
state and every prior storage content. -/
theorem persistence_roundtrip (store : String → Option SavedDoc)
    (s : PersistedState) :
    loadFromStorage (saveToStorage store s) initialState = s := by
  obtain ⟨meds, injections, conditions, stats, vault, diary, symptoms,
    dietPlan, contacts, pharmacy, alarmsEnabled⟩ := s
  cases dietPlan <;>
    simp [loadFromStorage, saveToStorage, loadState, saveState, initialState]

/-! ## analyzePrescription partitioning -/

theorem processItems_fst (l : List (ParsedItem × Int)) :
    (processItems l).1 =
      (l.filter fun x => !(x.1.type == "injection")).map
        fun x => mkMedication x.2 x.1 := by
  induction l with
  | nil => rfl
  | cons x rest ih =>
    by_cases h : x.1.type = "injection" <;>
      simp [processItems, h, ih, List.filter_cons]

theorem processItems_snd (l : List (ParsedItem × Int)) :
    (processItems l).2 =
      (l.filter fun x => x.1.type == "injection").map
        fun x => mkInjection x.2 x.1 := by
  induction l with
  | nil => rfl
  | cons x rest ih =>
    by_cases h : x.1.type = "injection" <;>
      simp [processItems, h, ih, List.filter_cons]

/-- C6: `analyzePrescription` partitions the parsed items into exactly
two lists by their `type` field: items with type `'injection'` form the
injections list and every other item the meds list (in order); every
returned medication has status `'pending'`, count 30, block `'am'` and
the full seven-day schedule; every returned injection has status
`'pending'`, with site defaulting to `'Rotate Sites'` and frequency
defaulting to `'Weekly'` when absent. -/
theorem analyzePrescription_partitions (l : List (ParsedItem × Int)) :
    (processItems l).1 =
      (l.filter fun x => !(x.1.type == "injection")).map
        (fun x => mkMedication x.2 x.1) ∧
    (processItems l).2 =
      (l.filter fun x => x.1.type == "injection").map
        (fun x => mkInjection x.2 x.1) ∧
    (∀ m ∈ (processItems l).1, m.status = .pending ∧ m.count = 30 ∧
      m.block = .am ∧
      m.schedule = ["Sun", "Mon", "Tue", "Wed", "Thu", "Fri", "Sat"]) ∧
    (∀ i ∈ (processItems l).2, i.status = .pending) ∧
    (∀ x : ParsedItem × Int,
      (x.1.site = none → (mkInjection x.2 x.1).site = "Rotate Sites") ∧
      (x.1.frequency = none → (mkInjection x.2 x.1).frequency = "Weekly")) := by
  refine ⟨processItems_fst l, processItems_snd l, ?_, ?_, ?_⟩
  · intro m hm
    rw [processItems_fst l] at hm
    rcases List.mem_map.mp hm with ⟨x, _, rfl⟩
    exact ⟨rfl, rfl, rfl, rfl⟩
  · intro i hi
    rw [processItems_snd l] at hi
    rcases List.mem_map.mp hi with ⟨x, _, rfl⟩
    exact rfl
  · intro x
    constructor
    · intro hs
      simp [mkInjection, jsOrString, hs]
    · intro hf
      simp [mkInjection, jsOrString, hf]

/-! ## Chat session error behaviour -/

theorem runChatOps_none_iff (respond : Chat → String → String)
    (ops : List ChatOp) (st : Option Chat) :
    runChatOps respond ops st = none ↔
      (st = none ∧ ∀ op ∈ ops, op.isStart = false) := by
  induction ops generalizing st with
  | nil => simp [runChatOps]
  | cons op rest ih =>
    cases op with
    | start meds conds =>
      simp [runChatOps, startChat, ih, ChatOp.isStart]
    | send msg =>
      cases st with
      | none => simp [runChatOps, sendChatMessage, ih, ChatOp.isStart]
      | some s => simp [runChatOps, sendChatMessage, ih, ChatOp.isStart]

/-- C9: after any sequence of chat operations starting from the
uninitialized module state, `sendChatMessage` throws if and only if no
prior operation was a `startChat` call; when a session exists it
returns the model's response text and leaves the active session
unchanged. -/
theorem sendChat_throws_iff_uninitialized (respond : Chat → String → String)
    (ops : List ChatOp) (msg : String) :
    ((∃ e, sendChatMessage respond msg (runChatOps respond ops none) =
        .error e) ↔ ∀ op ∈ ops, op.isStart = false) ∧
    (∀ s, runChatOps respond ops none = some s →
      sendChatMessage respond msg (runChatOps respond ops none) =
        .ok (respond s msg, runChatOps respond ops none)) := by
  constructor
  · have herr : (∃ e, sendChatMessage respond msg
        (runChatOps respond ops none) = .error e) ↔
        runChatOps respond ops none = none := by
      cases hst : runChatOps respond ops none with
      | none => simp [sendChatMessage]
      | some s => simp [sendChatMessage]
    rw [herr, runChatOps_none_iff]
    simp
  · intro s hs
    rw [hs]
    rfl

end MasterMeds
